import Mathlib

/-!
Verification of the scheduling, routing, and dispatch subsystem of the
computational-pipeline social-media automation: a shallow embedding of the
duplicate-content handler, the unified queue manager, the rate-limited
publisher, and the smart scheduler, together with theorems settling the
spec claims about them.

Modelling conventions:
* `datetime` instants are integers (seconds); `timedelta(days=d)` is
  `d * 86400`, `timedelta(hours=1)` is `3600`, `timedelta(minutes=m)` is
  `m * 60`.
* Queue items store `scheduled_time` as a string (ISO format in the source);
  where the source parses it with `datetime.fromisoformat`, the embedding
  takes an explicit `parse : String → Option Int` parameter (parse failure
  models the caught exception).
* `uuid.uuid4()` (a fresh group id) is an explicit argument.
* `random.choice(candidates)` is modelled at the level of the candidate
  list: theorems quantify over every element the choice could return.
-/

namespace SocialAutomation

def secondsPerDay : Int := 86400

def secondsPerHour : Int := 3600

/-! ## duplicate_content_handler.py -/

/-- `PageRoute` from page_router.py: routing output consumed by
`DuplicateContentHandler.schedule_duplicate_content`. -/
structure PageRoute where
  page_id : String
  page_name : String
  reason : String
  priority : Int
deriving DecidableEq, Repr

/-- One element of `DuplicateSchedule.schedules` (a dict in the source with
keys page_id, page_name, scheduled_time, and — in the multi-route branch —
is_original; a missing key reads as `False` via `.get('is_original', False)`). -/
structure SchedEntry where
  page_id : String
  page_name : String
  scheduled_time : Int
  is_original : Bool
deriving DecidableEq, Repr

/-- `DuplicateSchedule` dataclass. -/
structure DuplicateSchedule where
  original_time : Int
  schedules : List SchedEntry
  duplicate_group_id : String
  min_day_gap : Nat
deriving DecidableEq, Repr

/-- Comparison used by `sorted(routes, key=lambda r: r.priority, reverse=True)`:
descending by priority (stable). -/
def route_le (a b : PageRoute) : Bool :=
  decide (b.priority ≤ a.priority)

/-- The staggering loop of `schedule_duplicate_content`: each entry takes the
current time, which advances by `step` between entries; the first entry is
marked `is_original`. -/
def build_schedules : List PageRoute → Int → Int → Bool → List SchedEntry
  | [], _, _, _ => []
  | r :: rs, t, step, isFirst =>
    { page_id := r.page_id, page_name := r.page_name,
      scheduled_time := t, is_original := isFirst }
      :: build_schedules rs (t + step) step false

/-- `DuplicateContentHandler.schedule_duplicate_content` (lines 42-99).
`gid` stands for the `str(uuid.uuid4())` generated in the call. -/
def schedule_duplicate_content (min_day_gap : Nat) (routes : List PageRoute)
    (base_time : Int) (gid : String) : DuplicateSchedule :=
  if routes.length ≤ 1 then
    { original_time := base_time
      schedules :=
        match routes with
        | [] => []
        | r :: _ => [{ page_id := r.page_id, page_name := r.page_name,
                       scheduled_time := base_time, is_original := false }]
      duplicate_group_id := gid
      min_day_gap := 0 }
  else
    { original_time := base_time
      schedules := build_schedules (routes.mergeSort route_le) base_time
        ((min_day_gap : Int) * secondsPerDay) true
      duplicate_group_id := gid
      min_day_gap := min_day_gap }

/-! ## unified_queue_manager.py -/

/-- `QueuedContent` dataclass. `scheduled_time` is the ISO-format string the
source stores. -/
structure QueuedContent where
  content_id : String
  content_type : String
  page_id : String
  page_name : String
  platform : String
  content_text : String
  hashtags : List String
  link : String
  image_path : Option String
  alt_text : Option String
  source_name : String
  category : String
  scheduled_time : String
  priority : Int
  created_at : String
  is_duplicate : Bool
  duplicate_group_id : Option String
deriving DecidableEq, Repr

/-- Python string `<`: lexicographic comparison by code point, modelled on the
character list. -/
def str_lt (a b : String) : Bool :=
  decide (a.toList < b.toList)

/-- The sort key comparison of `_sort_queue`:
`self.queue.sort(key=lambda x: (x.scheduled_time, -x.priority))`, i.e.
lexicographic on (scheduled_time asc, priority desc). -/
def queue_le (a b : QueuedContent) : Bool :=
  str_lt a.scheduled_time b.scheduled_time ||
    (a.scheduled_time == b.scheduled_time && decide (b.priority ≤ a.priority))

/-- `UnifiedQueueManager._sort_queue` (line 362-364); Python `list.sort` is a
stable merge sort. -/
def sort_queue (q : List QueuedContent) : List QueuedContent :=
  q.mergeSort queue_le

/-- `UnifiedQueueManager.add_content`: append, re-sort, persist. -/
def add_content (q : List QueuedContent) (c : QueuedContent) : List QueuedContent :=
  sort_queue (q ++ [c])

/-- `UnifiedQueueManager.add_batch`: extend, re-sort, persist. -/
def add_batch (q : List QueuedContent) (cs : List QueuedContent) : List QueuedContent :=
  sort_queue (q ++ cs)

/-- `UnifiedQueueManager.remove_content`: keep every item whose id differs. -/
def remove_content (q : List QueuedContent) (content_id : String) : List QueuedContent :=
  q.filter (fun c => c.content_id != content_id)

/-- The loop body of `reschedule_content`: the source mutates the FIRST item
with the given id and returns immediately. -/
def set_first_time : List QueuedContent → String → String → List QueuedContent
  | [], _, _ => []
  | c :: cs, cid, t =>
    if c.content_id = cid then { c with scheduled_time := t } :: cs
    else c :: set_first_time cs cid t

/-- `UnifiedQueueManager.reschedule_content` (lines 189-206): update the first
match in place, then re-sort; if no item matches, the queue is untouched. -/
def reschedule_content (q : List QueuedContent) (cid : String) (new_time : String) :
    List QueuedContent :=
  if q.any (fun c => c.content_id == cid) then sort_queue (set_first_time q cid new_time)
  else q

/-- `UnifiedQueueManager.get_due_content` (lines 111-135): keep items whose
parsed time lies in `[now, now + within_minutes minutes]`; a parse failure is
caught, logged and the item skipped (the call never raises). -/
def get_due_content (parse : String → Option Int) (now : Int) (within_minutes : Int)
    (q : List QueuedContent) : List QueuedContent :=
  q.filter (fun c =>
    match parse c.scheduled_time with
    | some t => decide (now ≤ t ∧ t ≤ now + 60 * within_minutes)
    | none => false)

/-- One record of `posting_history` as built by `mark_posted`. -/
structure HistoryEntry where
  content_id : String
  content_type : String
  source_name : String
  page_id : String
  page_name : String
  platform : String
  post_id : String
  scheduled_time : String
  posted_at : String
  is_duplicate : Bool
  duplicate_group_id : Option String
deriving DecidableEq, Repr

/-- The mutable state of a `UnifiedQueueManager`: the queue and the posting
history. -/
structure QueueState where
  queue : List QueuedContent
  posting_history : List HistoryEntry
deriving DecidableEq, Repr

/-- `UnifiedQueueManager.mark_posted` (lines 158-187): remove the item's id
from the queue, then append one history entry. `posted_at` stands for the
`datetime.now().isoformat()` taken in the call. -/
def mark_posted (s : QueueState) (content : QueuedContent) (post_id posted_at : String) :
    QueueState :=
  { queue := remove_content s.queue content.content_id
    posting_history := s.posting_history ++
      [{ content_id := content.content_id
         content_type := content.content_type
         source_name := content.source_name
         page_id := content.page_id
         page_name := content.page_name
         platform := content.platform
         post_id := post_id
         scheduled_time := content.scheduled_time
         posted_at := posted_at
         is_duplicate := content.is_duplicate
         duplicate_group_id := content.duplicate_group_id }] }

/-- The queue-mutating operations of `UnifiedQueueManager` other than
`mark_posted`. -/
inductive QueueOp where
  | add (c : QueuedContent)
  | addBatch (cs : List QueuedContent)
  | remove (cid : String)
  | reschedule (cid : String) (new_time : String)

/-- Dispatch of one queue operation on the manager state; none of these
methods touches `posting_history` in the source. -/
def apply_op (s : QueueState) : QueueOp → QueueState
  | .add c => { s with queue := add_content s.queue c }
  | .addBatch cs => { s with queue := add_batch s.queue cs }
  | .remove cid => { s with queue := remove_content s.queue cid }
  | .reschedule cid t => { s with queue := reschedule_content s.queue cid t }

/-- A sequence of queue operations. -/
def apply_ops (s : QueueState) (ops : List QueueOp) : QueueState :=
  ops.foldl apply_op s

/-- The pairwise order the queue is kept in: non-decreasing scheduled_time
(lexicographic on the stored string, as Python compares the sort-key tuples),
ties broken by non-increasing priority. -/
def QueueSortedRel (a b : QueuedContent) : Prop :=
  a.scheduled_time.toList < b.scheduled_time.toList ∨
    (a.scheduled_time = b.scheduled_time ∧ b.priority ≤ a.priority)

instance : DecidableRel QueueSortedRel := fun a b => by
  unfold QueueSortedRel; infer_instance

/-- The queue iterates in sorted order. -/
def queue_sorted (q : List QueuedContent) : Prop :=
  q.Pairwise QueueSortedRel

instance (q : List QueuedContent) : Decidable (queue_sorted q) := by
  unfold queue_sorted; infer_instance

/-- Content-id uniqueness within a queue (spec §3 invariant). -/
def unique_ids (q : List QueuedContent) : Prop :=
  (q.map (·.content_id)).Nodup

instance (q : List QueuedContent) : Decidable (unique_ids q) := by
  unfold unique_ids; infer_instance

/-- No content id occurs both in the active queue and in posting history
(spec P6). -/
def ids_disjoint (s : QueueState) : Prop :=
  ∀ cid ∈ s.queue.map (·.content_id), cid ∉ s.posting_history.map (·.content_id)

instance (s : QueueState) : Decidable (ids_disjoint s) := by
  unfold ids_disjoint; infer_instance

/-! ## social_publisher.py -/

/-- One entry of `SocialMediaPublisher.rate_limits`: remaining allowance and
window-reset instant (`time.time()` modelled as whole seconds). -/
structure RateLimitEntry where
  remaining : Nat
  reset_time : Nat
deriving DecidableEq, Repr

/-- The per-platform refill amounts of `_check_rate_limit`:
`{'facebook': 200, 'instagram': 50, 'threads': 100}.get(platform, 100)`. -/
def refill_capacity (platform : String) : Nat :=
  if platform = "facebook" then 200
  else if platform = "instagram" then 50
  else if platform = "threads" then 100
  else 100

/-- `SocialMediaPublisher._check_rate_limit` (lines 462-490) acting on one
platform's entry with that platform's refill capacity `cap`: refill when the
window has passed (`time.time() > reset_time`), then consume a token if any
remains. -/
def check_rate_limit_entry (cap now : Nat) (e : RateLimitEntry) : Bool × RateLimitEntry :=
  let e1 := if e.reset_time < now then
      { remaining := cap, reset_time := now + 3600 } else e
  if 0 < e1.remaining then (true, { e1 with remaining := e1.remaining - 1 })
  else (false, e1)

/-- A sequence of `_check_rate_limit` calls at the given instants, threading
the entry state; returns the results in order. -/
def run_rate_calls (cap : Nat) : RateLimitEntry → List Nat → List Bool × RateLimitEntry
  | e, [] => ([], e)
  | e, t :: ts =>
    let r := check_rate_limit_entry cap t e
    let rest := run_rate_calls cap r.2 ts
    (r.1 :: rest.1, rest.2)

/-- Observable outcome of one `publish_to_facebook` call with configured
credentials: whether the publish network call was performed, and whether the
60-second backoff sleep happened. -/
structure PublishAttempt where
  published : Bool
  slept : Bool
deriving DecidableEq, Repr

/-- The rate-limit interaction of `publish_to_facebook` (lines 150-161), with
credentials configured: the code checks the limit and, when the check fails,
only logs and sleeps 60 seconds — it then falls through to the `try` block
and performs the publish regardless of the check's result. -/
def facebook_publish_attempt (cap now : Nat) (e : RateLimitEntry) :
    PublishAttempt × RateLimitEntry :=
  let r := check_rate_limit_entry cap now e
  ({ published := true, slept := !r.1 }, r.2)

/-- Sequential `publish_to_facebook` attempts at the given instants. -/
def run_publish_attempts (cap : Nat) :
    RateLimitEntry → List Nat → List PublishAttempt × RateLimitEntry
  | e, [] => ([], e)
  | e, t :: ts =>
    let r := facebook_publish_attempt cap t e
    let rest := run_publish_attempts cap r.2 ts
    (r.1 :: rest.1, rest.2)

/-- `PublishResult` dataclass. -/
structure PublishResult where
  success : Bool
  platform : String
  post_id : Option String
  error_message : Option String
  timestamp : String
  template_name : String
deriving DecidableEq, Repr

/-- Python falsiness of an optional string credential (`not self.ig_account_id`
holds for `None` and for the empty string). -/
def str_falsy : Option String → Bool
  | none => true
  | some s => s.isEmpty

/-- `SocialMediaPublisher.publish_to_instagram` (lines 310-393).
`file_exists` models `Path(image_path).exists()`; `ts` stands for the
`datetime.now().isoformat()` taken in the call; `cap`/`now`/`rate` are the
instagram rate-limit window. Every branch of the source returns a result
with `success=False`; the fully-supplied branch performs the rate-limit check
and then returns the placeholder failure. -/
def publish_to_instagram (ig_account_id ig_access_token : Option String)
    (file_exists : String → Bool) (cap now : Nat) (rate : RateLimitEntry)
    (image_path template_name ts : String) : PublishResult × RateLimitEntry :=
  if str_falsy ig_account_id || str_falsy ig_access_token then
    ({ success := false, platform := "instagram", post_id := none,
       error_message := some "Missing credentials", timestamp := ts,
       template_name := template_name }, rate)
  else if image_path.isEmpty || !file_exists image_path then
    ({ success := false, platform := "instagram", post_id := none,
       error_message := some "Image required for Instagram", timestamp := ts,
       template_name := template_name }, rate)
  else
    let r := check_rate_limit_entry cap now rate
    ({ success := false, platform := "instagram", post_id := none,
       error_message := some "Instagram publishing requires image hosting setup",
       timestamp := ts, template_name := template_name }, r.2)

/-! ## smart_scheduler.py -/

/-- `TemplateMetadata` from template_scanner.py. -/
structure TemplateMetadata where
  category : String
  template_name : String
  tex_file : String
  pdf_file : Option String
  plot_files : List String
  title : String
  author : String
  abstract : String
  packages : List String
  github_url : String
  cocalc_url : String
  has_pythontex : Bool
  has_sagetex : Bool
  has_knitr : Bool
  file_size : Nat
  last_modified : String
  complexity_score : Int
deriving DecidableEq, Repr

/-- `QueuedPost` dataclass of smart_scheduler.py. -/
structure QueuedPost where
  template : TemplateMetadata
  platform : String
  content : String
  hashtags : List String
  link : String
  image_path : Option String
  alt_text : Option String
  scheduled_time : String
  priority : Int
  created_at : String
deriving DecidableEq, Repr

/-- `SmartScheduler._reschedule_post` (lines 392-401): parse the stored time,
add one hour, store it back; a parse failure is caught and leaves the post
unchanged. `fromiso`/`toiso` model `datetime.fromisoformat` and
`datetime.isoformat`. -/
def reschedule_post (fromiso : String → Option Int) (toiso : Int → String)
    (p : QueuedPost) : QueuedPost :=
  match fromiso p.scheduled_time with
  | some t => { p with scheduled_time := toiso (t + secondsPerHour) }
  | none => p

/-- The queue effect of `SmartScheduler.publish_post` (lines 334-390) on the
post found at position `i` (the mutation targets that object): on success the
source removes every item equal to the post
(`self.queue = [p for p in self.queue if p != post]`); on failure — a result
with `success=False` or a raised exception — it mutates that post's
`scheduled_time` in place via `_reschedule_post`. -/
def publish_post_update (fromiso : String → Option Int) (toiso : Int → String)
    (q : List QueuedPost) (i : Nat) (success : Bool) : List QueuedPost :=
  match q[i]? with
  | none => q
  | some post =>
    if success then q.filter (fun p => p != post)
    else q.set i (reschedule_post fromiso toiso post)

/-- The theme test of `_select_template_for_day`:
`theme in category or category.startswith(theme)`. -/
def theme_matches (theme category : String) : Bool :=
  decide (List.IsInfix theme.toList category.toList) || category.startsWith theme

/-- All templates of the scanner index, in dict iteration order
(`for templates in self.scanner.templates.values(): candidates.extend(...)`). -/
def all_templates (dict : List (String × List TemplateMetadata)) : List TemplateMetadata :=
  (dict.map (·.2)).flatten

/-- Theme-filtered candidate collection of `_select_template_for_day`
(lines 180-189): for each category, for each matching theme, extend by that
category's templates. -/
def candidates_for_themes (themes : List String)
    (dict : List (String × List TemplateMetadata)) : List TemplateMetadata :=
  (dict.map (fun p =>
    ((themes.filter (fun th => theme_matches th p.1)).map (fun _ => p.2)).flatten)).flatten

/-- Python `recent[-30:]`: the last (up to) 30 entries. -/
def last_n (n : Nat) (l : List String) : List String :=
  l.drop (l.length - n)

/-- The theme-driven candidate list (lines 180-189): every template on the
"mixed" wildcard, the theme matches otherwise. -/
def theme_candidates (themes : List String)
    (dict : List (String × List TemplateMetadata)) : List TemplateMetadata :=
  if themes.contains "mixed" then all_templates dict
  else candidates_for_themes themes dict

/-- The candidate pool before the recency filter: theme matches, falling back
to every template when the theme filter finds nothing (lines 180-194). -/
def candidate_pool (themes : List String)
    (dict : List (String × List TemplateMetadata)) : List TemplateMetadata :=
  if (theme_candidates themes dict).isEmpty then all_templates dict
  else theme_candidates themes dict

/-- `SmartScheduler._select_template_for_day` (lines 166-208) up to the final
`random.choice`: returns the list the choice draws from together with the new
`recent_templates[platform]` state (cleared when every candidate was recently
used). `random.choice(candidates) if candidates else None` then picks an
arbitrary element of the first component. -/
def select_candidates (themes : List String)
    (dict : List (String × List TemplateMetadata)) (recent : List String) :
    List TemplateMetadata × List String :=
  if ((candidate_pool themes dict).filter
      (fun t => !((last_n 30 recent).contains t.template_name))).isEmpty then
    (all_templates dict, [])
  else
    ((candidate_pool themes dict).filter
      (fun t => !((last_n 30 recent).contains t.template_name)), recent)

/-! ## Helper lemmas -/

theorem build_schedules_length (rs : List PageRoute) (t step : Int) (b : Bool) :
    (build_schedules rs t step b).length = rs.length := by
  induction rs generalizing t b with
  | nil => rfl
  | cons r rs ih => simp [build_schedules, ih]

theorem build_schedules_fields (rs : List PageRoute) (t step : Int) (b : Bool)
    (i : Nat) (hi : i < (build_schedules rs t step b).length)
    (hi' : i < rs.length) :
    ((build_schedules rs t step b)[i]).scheduled_time = t + i * step ∧
    ((build_schedules rs t step b)[i]).page_id = rs[i].page_id ∧
    ((build_schedules rs t step b)[i]).page_name = rs[i].page_name := by
  induction rs generalizing t b i with
  | nil => exact absurd hi' (Nat.not_lt_zero i)
  | cons r rs ih =>
    cases i with
    | zero => refine ⟨?_, rfl, rfl⟩; simp [build_schedules]
    | succ n =>
      have hn' : n < rs.length := Nat.lt_of_succ_lt_succ hi'
      have hn : n < (build_schedules rs (t + step) step false).length := by
        rw [build_schedules_length]; exact hn'
      have := ih (t + step) false n hn hn'
      refine ⟨?_, this.2.1, this.2.2⟩
      have h1 : ((build_schedules (r :: rs) t step b)[n + 1]) =
          ((build_schedules rs (t + step) step false)[n]) := by
        simp [build_schedules]
      rw [h1, this.1]
      push_cast
      ring

theorem route_le_trans (a b c : PageRoute) (hab : route_le a b) (hbc : route_le b c) :
    route_le a c := by
  simp only [route_le, decide_eq_true_eq] at *
  exact le_trans hbc hab

theorem route_le_total (a b : PageRoute) : route_le a b || route_le b a := by
  simp only [route_le, Bool.or_eq_true, decide_eq_true_eq]
  exact (le_total b.priority a.priority).elim Or.inl Or.inr

/-! ## C1 -/

/-- C1: with more than one route, `schedule_duplicate_content` orders the
entries by route priority descending (the sorted routes are a permutation of
the input with non-increasing priorities and the i-th entry carries the i-th
sorted route's page), assigns the i-th entry (0-based) the time
`base_time + i * min_day_gap` days, stamps the single freshly generated group
id on the result, and any two entries are at least `min_day_gap` days apart. -/
theorem schedule_duplicate_content_spec (g : Nat) (routes : List PageRoute)
    (T : Int) (gid : String) (hlen : 1 < routes.length) :
    (schedule_duplicate_content g routes T gid).duplicate_group_id = gid ∧
    (routes.mergeSort route_le).Perm routes ∧
    (routes.mergeSort route_le).Pairwise (fun a b => b.priority ≤ a.priority) ∧
    (schedule_duplicate_content g routes T gid).schedules.length = routes.length ∧
    (∀ i (hi : i < (schedule_duplicate_content g routes T gid).schedules.length)
       (hi' : i < (routes.mergeSort route_le).length),
      ((schedule_duplicate_content g routes T gid).schedules[i]).scheduled_time =
          T + (i : Int) * ((g : Int) * secondsPerDay) ∧
      ((schedule_duplicate_content g routes T gid).schedules[i]).page_id =
          ((routes.mergeSort route_le)[i]).page_id) ∧
    (∀ i j (hi : i < (schedule_duplicate_content g routes T gid).schedules.length)
       (hj : j < (schedule_duplicate_content g routes T gid).schedules.length),
      i ≠ j →
      (g : Int) * secondsPerDay ≤
        |((schedule_duplicate_content g routes T gid).schedules[i]).scheduled_time -
          ((schedule_duplicate_content g routes T gid).schedules[j]).scheduled_time|) := by
  have hif : ¬ (routes.length ≤ 1) := by omega
  have hsch : (schedule_duplicate_content g routes T gid).schedules =
      build_schedules (routes.mergeSort route_le) T ((g : Int) * secondsPerDay) true := by
    simp [schedule_duplicate_content, hif]
  have hgid : (schedule_duplicate_content g routes T gid).duplicate_group_id = gid := by
    simp [schedule_duplicate_content, hif]
  have hlens : (schedule_duplicate_content g routes T gid).schedules.length =
      routes.length := by
    rw [hsch, build_schedules_length, List.length_mergeSort]
  have hfields : ∀ i (hi : i < (schedule_duplicate_content g routes T gid).schedules.length)
      (hi' : i < (routes.mergeSort route_le).length),
      ((schedule_duplicate_content g routes T gid).schedules[i]).scheduled_time =
          T + (i : Int) * ((g : Int) * secondsPerDay) ∧
      ((schedule_duplicate_content g routes T gid).schedules[i]).page_id =
          ((routes.mergeSort route_le)[i]).page_id := by
    intro i hi hi'
    have hi2 : i < (build_schedules (routes.mergeSort route_le) T
        ((g : Int) * secondsPerDay) true).length := by rw [← hsch]; exact hi
    have := build_schedules_fields (routes.mergeSort route_le) T
      ((g : Int) * secondsPerDay) true i hi2 hi'
    have hsame : ((schedule_duplicate_content g routes T gid).schedules[i]) =
        ((build_schedules (routes.mergeSort route_le) T ((g : Int) * secondsPerDay) true)[i]) := by
      simp [hsch]
    constructor
    · rw [hsame, this.1]
    · rw [hsame, this.2.1]
  refine ⟨hgid, List.mergeSort_perm routes route_le, ?_, hlens, hfields, ?_⟩
  · exact (List.sorted_mergeSort route_le_trans route_le_total routes).imp
      (fun h => by simpa [route_le, decide_eq_true_eq] using h)
  · intro i j hi hj hij
    have hi' : i < (routes.mergeSort route_le).length := by
      rw [List.length_mergeSort]; omega
    have hj' : j < (routes.mergeSort route_le).length := by
      rw [List.length_mergeSort]; omega
    have h1 := (hfields i hi hi').1
    have h2 := (hfields j hj hj').1
    rw [h1, h2]
    have hstep : (0 : Int) ≤ (g : Int) * secondsPerDay := by
      have : (0 : Int) ≤ (g : Int) := Int.natCast_nonneg g
      have h86 : (0 : Int) ≤ secondsPerDay := by norm_num [secondsPerDay]
      exact mul_nonneg this h86
    have hne : ((i : Int) - (j : Int)) ≠ 0 := by
      intro h
      exact hij (by exact_mod_cast sub_eq_zero.mp h)
    have habs : (1 : Int) ≤ |(i : Int) - (j : Int)| := Int.one_le_abs hne
    have : T + (i : Int) * ((g : Int) * secondsPerDay) -
        (T + (j : Int) * ((g : Int) * secondsPerDay)) =
        ((i : Int) - (j : Int)) * ((g : Int) * secondsPerDay) := by ring
    rw [this, abs_mul, abs_of_nonneg hstep]
    calc (g : Int) * secondsPerDay = 1 * ((g : Int) * secondsPerDay) := by ring
      _ ≤ |(i : Int) - (j : Int)| * ((g : Int) * secondsPerDay) :=
        mul_le_mul_of_nonneg_right habs hstep

/-- C1 witness: the two-route registry of the source's own test, priorities
10 and 8, min_day_gap 2. -/
theorem schedule_duplicate_content_spec_witness :
    1 < ([⟨"698630966948910", "CoCalc", "All content", 10⟩,
          ⟨"26593144945", "SageMath", "Math content", 8⟩] : List PageRoute).length ∧
    (schedule_duplicate_content 2
      [⟨"698630966948910", "CoCalc", "All content", 10⟩,
       ⟨"26593144945", "SageMath", "Math content", 8⟩] 0 "group-1").duplicate_group_id =
      "group-1" :=
  ⟨by decide,
   (schedule_duplicate_content_spec 2
      [⟨"698630966948910", "CoCalc", "All content", 10⟩,
       ⟨"26593144945", "SageMath", "Math content", 8⟩] 0 "group-1" (by decide)).1⟩

theorem queue_le_iff (a b : QueuedContent) : queue_le a b = true ↔ QueueSortedRel a b := by
  simp [queue_le, str_lt, QueueSortedRel]

theorem queue_le_trans (a b c : QueuedContent) (hab : queue_le a b) (hbc : queue_le b c) :
    queue_le a c := by
  rw [queue_le_iff] at hab hbc ⊢
  rcases hab with h1 | ⟨he1, hp1⟩
  · rcases hbc with h2 | ⟨he2, hp2⟩
    · exact Or.inl (lt_trans h1 h2)
    · exact Or.inl (by rw [← he2]; exact h1)
  · rcases hbc with h2 | ⟨he2, hp2⟩
    · exact Or.inl (by rw [he1]; exact h2)
    · exact Or.inr ⟨he1.trans he2, le_trans hp2 hp1⟩

theorem queue_le_total (a b : QueuedContent) : queue_le a b || queue_le b a := by
  simp only [Bool.or_eq_true, queue_le_iff]
  rcases lt_trichotomy a.scheduled_time.toList b.scheduled_time.toList with h | h | h
  · exact Or.inl (Or.inl h)
  · have he : a.scheduled_time = b.scheduled_time := String.ext h
    rcases le_total b.priority a.priority with hp | hp
    · exact Or.inl (Or.inr ⟨he, hp⟩)
    · exact Or.inr (Or.inr ⟨he.symm, hp⟩)
  · exact Or.inr (Or.inl h)

theorem sort_queue_sorted (q : List QueuedContent) : queue_sorted (sort_queue q) :=
  (List.sorted_mergeSort queue_le_trans queue_le_total q).imp
    (fun h => (queue_le_iff _ _).1 h)

theorem queue_sorted_remove (q : List QueuedContent) (cid : String)
    (h : queue_sorted q) : queue_sorted (remove_content q cid) :=
  List.Pairwise.sublist (List.filter_sublist q) h

theorem queue_sorted_reschedule (q : List QueuedContent) (cid new_time : String)
    (h : queue_sorted q) : queue_sorted (reschedule_content q cid new_time) := by
  unfold reschedule_content
  split
  · exact sort_queue_sorted _
  · exact h

/-! ## C2 -/

/-- C2: starting from any sorted manager state, after any sequence of
`add_content`, `add_batch`, `reschedule_content` and `remove_content`
operations, iterating the queue yields non-decreasing scheduled_time with
equal-time entries in non-increasing priority order (`queue_sorted`). -/
theorem apply_ops_sort_invariant (s : QueueState) (ops : List QueueOp)
    (h : queue_sorted s.queue) : queue_sorted (apply_ops s ops).queue := by
  induction ops generalizing s with
  | nil => exact h
  | cons op ops ih =>
    have hstep : queue_sorted (apply_op s op).queue := by
      cases op with
      | add c => exact sort_queue_sorted _
      | addBatch cs => exact sort_queue_sorted _
      | remove cid => exact queue_sorted_remove _ _ h
      | reschedule cid t => exact queue_sorted_reschedule _ _ _ h
    simp only [apply_ops, List.foldl_cons]
    exact ih (apply_op s op) hstep

/-- C2 witness: an empty manager, two inserts with equal times and different
priorities, a reschedule and a remove. -/
theorem apply_ops_sort_invariant_witness :
    queue_sorted (QueueState.mk [] []).queue ∧
    queue_sorted (apply_ops (QueueState.mk [] [])
      [.add ⟨"a", "template", "p1", "CoCalc", "facebook", "text-a", [], "la",
          none, none, "srcA", "math", "2025-01-02T10:00:00", 5, "", false, none⟩,
       .add ⟨"b", "notebook", "p1", "CoCalc", "facebook", "text-b", [], "lb",
          none, none, "srcB", "math", "2025-01-02T10:00:00", 8, "", false, none⟩,
       .reschedule "b" "2025-01-05T09:00:00",
       .remove "a"]).queue :=
  ⟨by decide,
   apply_ops_sort_invariant (QueueState.mk [] [])
     [.add ⟨"a", "template", "p1", "CoCalc", "facebook", "text-a", [], "la",
         none, none, "srcA", "math", "2025-01-02T10:00:00", 5, "", false, none⟩,
      .add ⟨"b", "notebook", "p1", "CoCalc", "facebook", "text-b", [], "lb",
         none, none, "srcB", "math", "2025-01-02T10:00:00", 8, "", false, none⟩,
      .reschedule "b" "2025-01-05T09:00:00",
      .remove "a"] (by decide)⟩

/-! ## C3 -/

/-- C3: `get_due_content` returns exactly the queued items whose
scheduled_time parses to an instant in `[now, now + w]` (inclusive, `w` in
minutes), in queue order (a sublist of the queue); items whose scheduled_time
fails to parse are skipped (the caught exception never propagates: the
embedding is a total function). -/
theorem get_due_content_spec (parse : String → Option Int) (now within : Int)
    (q : List QueuedContent) :
    (get_due_content parse now within q).Sublist q ∧
    ∀ c, c ∈ get_due_content parse now within q ↔
      c ∈ q ∧ ∃ t, parse c.scheduled_time = some t ∧
        now ≤ t ∧ t ≤ now + 60 * within := by
  refine ⟨List.filter_sublist q, ?_⟩
  intro c
  simp only [get_due_content, List.mem_filter]
  constructor
  · rintro ⟨hc, hf⟩
    refine ⟨hc, ?_⟩
    cases hp : parse c.scheduled_time with
    | none => rw [hp] at hf; simp at hf
    | some t =>
      rw [hp] at hf
      simp only [decide_eq_true_eq] at hf
      exact ⟨t, rfl, hf.1, hf.2⟩
  · rintro ⟨hc, t, hp, h1, h2⟩
    refine ⟨hc, ?_⟩
    rw [hp]
    simpa using ⟨h1, h2⟩

/-! ## C4 -/

/-- C4: evaluation of the code at the claim's scenario (capacity 3 per
window, 4 sequential publish attempts within one window, credentials
configured). The spec says the 4th attempt is refused as THROTTLED and not
published; in the code `publish_to_facebook` only logs and sleeps 60 s when
`_check_rate_limit` returns False and then falls through to the publish —
so all 4 attempts perform the publish, the 4th after the backoff sleep and
without consuming budget. -/
theorem facebook_throttled_attempt_still_publishes :
    ((run_publish_attempts 3 ⟨3, 10000⟩ [10, 20, 30, 40]).1.map (·.published) =
      [true, true, true, true]) ∧
    ((run_publish_attempts 3 ⟨3, 10000⟩ [10, 20, 30, 40]).1.map (·.slept) =
      [false, false, false, true]) ∧
    ((run_publish_attempts 3 ⟨3, 10000⟩ [10, 20, 30, 40]).1.countP (·.published)) = 4 := by
  decide

/-! ## C5 -/

theorem run_rate_calls_drain (cap : Nat) (ts : List Nat) (e : RateLimitEntry) (n : Nat)
    (hrem : e.remaining = n) (hlen : ts.length = n)
    (hts : ∀ t ∈ ts, t ≤ e.reset_time) :
    (run_rate_calls cap e ts).1 = List.replicate n true ∧
    (run_rate_calls cap e ts).2 = ⟨0, e.reset_time⟩ := by
  induction ts generalizing e n with
  | nil =>
    simp only [List.length_nil] at hlen
    subst hlen
    cases e with
    | mk r rt =>
      simp only [run_rate_calls, List.replicate]
      simp_all
  | cons t ts' ih =>
    subst hrem
    have hle : t ≤ e.reset_time := hts t (List.mem_cons_self t ts')
    have hnotlt : ¬ e.reset_time < t := Nat.not_lt.mpr hle
    simp only [List.length_cons] at hlen
    have hpos : 0 < e.remaining := by omega
    have hstep : check_rate_limit_entry cap t e =
        (true, ⟨e.remaining - 1, e.reset_time⟩) := by
      simp only [check_rate_limit_entry, if_neg hnotlt, if_pos hpos]
    have hrun : run_rate_calls cap e (t :: ts') =
        ((run_rate_calls cap ⟨e.remaining - 1, e.reset_time⟩ ts').1.cons true,
         (run_rate_calls cap ⟨e.remaining - 1, e.reset_time⟩ ts').2) := by
      simp [run_rate_calls, hstep]
    have ih' := ih ⟨e.remaining - 1, e.reset_time⟩ ts'.length (by simp; omega) rfl
      (fun t' ht' => hts t' (List.mem_cons_of_mem _ ht'))
    rw [hrun]
    have hrepl : e.remaining = ts'.length + 1 := by omega
    rw [hrepl] at ih' ⊢
    simp only [Nat.add_sub_cancel] at ih' ⊢
    rw [List.replicate_succ]
    exact ⟨by rw [List.cons_eq_cons]; exact ⟨rfl, ih'.1⟩, ih'.2⟩

/-- C5: (1) with the budget exhausted (`remaining = 0`) and the window still
open (`now ≤ reset_time`), `_check_rate_limit` returns False and leaves the
entry unchanged, so the remaining count stays 0; (2) starting with
`remaining = capacity`, exactly `capacity` calls within one window all
succeed and drain the count to 0 without moving `reset_time`; (3) the first
call after `now` passes `reset_time` refills the allowance to the platform's
capacity, starts a new one-hour window (`reset_time = now + 3600`), and — as
a consumption — succeeds, leaving `capacity - 1` of the restored allowance. -/
theorem check_rate_limit_spec (cap : Nat) :
    (∀ (now : Nat) (e : RateLimitEntry), e.remaining = 0 → now ≤ e.reset_time →
      check_rate_limit_entry cap now e = (false, e)) ∧
    (∀ (e : RateLimitEntry) (ts : List Nat), e.remaining = cap → ts.length = cap →
      (∀ t ∈ ts, t ≤ e.reset_time) →
      (run_rate_calls cap e ts).1 = List.replicate cap true ∧
      (run_rate_calls cap e ts).2 = ⟨0, e.reset_time⟩) ∧
    (∀ (now : Nat) (e : RateLimitEntry), e.reset_time < now → 0 < cap →
      check_rate_limit_entry cap now e = (true, ⟨cap - 1, now + 3600⟩)) := by
  refine ⟨?_, ?_, ?_⟩
  · intro now e hrem hle
    have hnotlt : ¬ e.reset_time < now := Nat.not_lt.mpr hle
    have h0 : ¬ 0 < e.remaining := by omega
    simp only [check_rate_limit_entry, if_neg hnotlt, if_neg h0]
  · intro e ts hrem hlen hts
    exact run_rate_calls_drain cap ts e cap hrem hlen hts
  · intro now e hlt hcap
    simp [check_rate_limit_entry, hlt, hcap]

/-- C5 witness: capacity 3, three draining calls inside the window, a refused
fourth call, and a refilling call after the window passes. -/
theorem check_rate_limit_spec_witness :
    (( run_rate_calls 3 ⟨3, 10000⟩ [10, 20, 30]).1 = List.replicate 3 true ∧
      (run_rate_calls 3 ⟨3, 10000⟩ [10, 20, 30]).2 = ⟨0, 10000⟩) ∧
    check_rate_limit_entry 3 40 ⟨0, 10000⟩ = (false, ⟨0, 10000⟩) ∧
    check_rate_limit_entry 3 10001 ⟨0, 10000⟩ = (true, ⟨2, 13601⟩) :=
  ⟨(check_rate_limit_spec 3).2.1 ⟨3, 10000⟩ [10, 20, 30] rfl rfl (by decide),
   (check_rate_limit_spec 3).1 40 ⟨0, 10000⟩ rfl (by decide),
   (check_rate_limit_spec 3).2.2 10001 ⟨0, 10000⟩ (by decide) (by decide)⟩

/-! ## C6 -/

theorem publish_post_update_false_length (fromiso : String → Option Int)
    (toiso : Int → String) (q : List QueuedPost) (i : Nat) :
    (publish_post_update fromiso toiso q i false).length = q.length := by
  unfold publish_post_update
  cases h : q[i]? with
  | none => rfl
  | some post => simp

/-- C6: a transient publish failure (failed result or raised exception) keeps
the item in the queue — the queue keeps its length and all other positions —
and replaces only its scheduled_time with the old value plus one hour, every
other field unchanged; a successful publish removes the item from the queue. -/
theorem publish_post_spec (fromiso : String → Option Int) (toiso : Int → String)
    (q : List QueuedPost) (i : Nat) (post : QueuedPost) (t : Int)
    (hq : q[i]? = some post) (ht : fromiso post.scheduled_time = some t) :
    (publish_post_update fromiso toiso q i false).length = q.length ∧
    (publish_post_update fromiso toiso q i false)[i]? =
      some { post with scheduled_time := toiso (t + secondsPerHour) } ∧
    (∀ j, j ≠ i → (publish_post_update fromiso toiso q i false)[j]? = q[j]?) ∧
    post ∉ publish_post_update fromiso toiso q i true := by
  have hilen : i < q.length := (List.getElem?_eq_some_iff.mp hq).1
  have hres : reschedule_post fromiso toiso post =
      { post with scheduled_time := toiso (t + secondsPerHour) } := by
    simp [reschedule_post, ht]
  have hfalse : publish_post_update fromiso toiso q i false =
      q.set i { post with scheduled_time := toiso (t + secondsPerHour) } := by
    unfold publish_post_update
    rw [hq]
    simp [hres]
  have htrue : publish_post_update fromiso toiso q i true =
      q.filter (fun p => p != post) := by
    unfold publish_post_update
    rw [hq]
    simp
  refine ⟨publish_post_update_false_length fromiso toiso q i, ?_, ?_, ?_⟩
  · rw [hfalse]
    exact List.getElem?_set_self hilen
  · intro j hj
    rw [hfalse]
    exact List.getElem?_set_ne (fun h => hj h.symm)
  · rw [htrue]
    intro hmem
    have := (List.mem_filter.mp hmem).2
    simp at this

/-- C6 witness: a one-item queue scheduled at the instant a concrete codec
maps to 0; the failure update keeps the length. -/
theorem publish_post_spec_witness :
    (([⟨⟨"math", "tmpl", "f.tex", none, [], "T", "A", "Ab", [], "gh", "cc",
        false, false, false, 0, "lm", 3⟩, "facebook", "body", [], "link",
        none, none, "T0", 5, "c"⟩] : List QueuedPost))[0]? =
      some ⟨⟨"math", "tmpl", "f.tex", none, [], "T", "A", "Ab", [], "gh", "cc",
        false, false, false, 0, "lm", 3⟩, "facebook", "body", [], "link",
        none, none, "T0", 5, "c"⟩ ∧
    (fun s => if s = "T0" then some (0 : Int) else none) "T0" = some 0 ∧
    (publish_post_update (fun s => if s = "T0" then some (0 : Int) else none)
      (fun t => if t = 3600 then "T1" else "T0")
      [⟨⟨"math", "tmpl", "f.tex", none, [], "T", "A", "Ab", [], "gh", "cc",
        false, false, false, 0, "lm", 3⟩, "facebook", "body", [], "link",
        none, none, "T0", 5, "c"⟩] 0 false).length =
      ([⟨⟨"math", "tmpl", "f.tex", none, [], "T", "A", "Ab", [], "gh", "cc",
        false, false, false, 0, "lm", 3⟩, "facebook", "body", [], "link",
        none, none, "T0", 5, "c"⟩] : List QueuedPost).length :=
  ⟨by decide, by decide,
   (publish_post_spec (fun s => if s = "T0" then some (0 : Int) else none)
      (fun t => if t = 3600 then "T1" else "T0")
      [⟨⟨"math", "tmpl", "f.tex", none, [], "T", "A", "Ab", [], "gh", "cc",
        false, false, false, 0, "lm", 3⟩, "facebook", "body", [], "link",
        none, none, "T0", 5, "c"⟩] 0
      ⟨⟨"math", "tmpl", "f.tex", none, [], "T", "A", "Ab", [], "gh", "cc",
        false, false, false, 0, "lm", 3⟩, "facebook", "body", [], "link",
        none, none, "T0", 5, "c"⟩ 0 (by decide) (by decide)).1⟩

/-! ## C7 -/

/-- C7: `mark_posted` removes every queue entry carrying the item's content
id (and nothing else), appends exactly one posting-history record carrying
that content id and the platform post id, preserves queue/history id
disjointness (so no content id is both queued and in history afterwards),
and no other queue operation (`add_content`, `add_batch`, `remove_content`,
`reschedule_content`) ever touches the posting history. -/
theorem mark_posted_spec (s : QueueState) (content : QueuedContent)
    (post_id posted_at : String) :
    (mark_posted s content post_id posted_at).queue =
      s.queue.filter (fun c => c.content_id != content.content_id) ∧
    (∀ c ∈ (mark_posted s content post_id posted_at).queue,
      c.content_id ≠ content.content_id) ∧
    (mark_posted s content post_id posted_at).posting_history =
      s.posting_history ++
        [⟨content.content_id, content.content_type, content.source_name,
          content.page_id, content.page_name, content.platform, post_id,
          content.scheduled_time, posted_at, content.is_duplicate,
          content.duplicate_group_id⟩] ∧
    (ids_disjoint s → ids_disjoint (mark_posted s content post_id posted_at)) ∧
    (∀ op, (apply_op s op).posting_history = s.posting_history) := by
  refine ⟨rfl, ?_, rfl, ?_, ?_⟩
  · intro c hc
    have := (List.mem_filter.mp hc).2
    simpa using this
  · intro hd cid hq hh
    simp only [mark_posted, List.mem_map] at hq
    obtain ⟨c, hcmem, hcid⟩ := hq
    have hcq : c ∈ s.queue := (List.mem_filter.mp hcmem).1
    have hcne : c.content_id ≠ content.content_id := by
      have := (List.mem_filter.mp hcmem).2
      simpa using this
    simp only [mark_posted, List.map_append, List.mem_append, List.map_cons,
      List.map_nil, List.mem_singleton] at hh
    rcases hh with hold | hnew
    · exact hd cid (List.mem_map.mpr ⟨c, hcq, hcid⟩) hold
    · exact hcne (hcid.trans hnew)
  · intro op
    cases op <;> rfl

/-- C7 witness: a one-item queue with empty history; disjointness holds
before and after marking the item posted. -/
theorem mark_posted_spec_witness :
    ids_disjoint ⟨[⟨"a", "template", "p1", "CoCalc", "facebook", "txt", [], "l",
      none, none, "src", "math", "2025-01-02T10:00:00", 5, "", false, none⟩], []⟩ ∧
    ids_disjoint (mark_posted
      ⟨[⟨"a", "template", "p1", "CoCalc", "facebook", "txt", [], "l",
        none, none, "src", "math", "2025-01-02T10:00:00", 5, "", false, none⟩], []⟩
      ⟨"a", "template", "p1", "CoCalc", "facebook", "txt", [], "l",
        none, none, "src", "math", "2025-01-02T10:00:00", 5, "", false, none⟩
      "fbpost-1" "2025-01-02T10:00:05") :=
  ⟨by decide,
   (mark_posted_spec
      ⟨[⟨"a", "template", "p1", "CoCalc", "facebook", "txt", [], "l",
        none, none, "src", "math", "2025-01-02T10:00:00", 5, "", false, none⟩], []⟩
      ⟨"a", "template", "p1", "CoCalc", "facebook", "txt", [], "l",
        none, none, "src", "math", "2025-01-02T10:00:00", 5, "", false, none⟩
      "fbpost-1" "2025-01-02T10:00:05").2.2.2.1 (by decide)⟩

/-! ## C8 -/

/-- C8 counterexample: `add_content` performs no id check, so adding a second
item with an already-queued content id produces a queue with a duplicated id
— id uniqueness is not preserved for every input. -/
theorem add_content_unique_ids_cex :
    unique_ids [⟨"a", "template", "p1", "CoCalc", "facebook", "txt-1", [], "l",
      none, none, "src1", "math", "2025-01-02T10:00:00", 5, "", false, none⟩] ∧
    ¬ unique_ids (add_content
      [⟨"a", "template", "p1", "CoCalc", "facebook", "txt-1", [], "l",
        none, none, "src1", "math", "2025-01-02T10:00:00", 5, "", false, none⟩]
      ⟨"a", "notebook", "p1", "CoCalc", "facebook", "txt-2", [], "l",
        none, none, "src2", "math", "2025-01-03T10:00:00", 5, "", false, none⟩) := by
  refine ⟨by decide, ?_⟩
  intro h
  unfold unique_ids add_content sort_queue at h
  exact absurd
    ((List.Perm.nodup_iff ((List.mergeSort_perm _ queue_le).map (fun x => x.content_id))).mp h)
    (by decide)

theorem sort_queue_unique_ids (l : List QueuedContent) (hl : unique_ids l) :
    unique_ids (sort_queue l) := by
  unfold unique_ids sort_queue at *
  exact (((List.mergeSort_perm l queue_le).map (·.content_id)).nodup_iff).mpr hl

/-- C8 amended: content id uniqueness is preserved by `add_content` whenever
the new item's id is not already queued, and by `add_batch` whenever the
batch ids are pairwise distinct and none is already queued; the code itself
never checks, so freshness of the ids is the caller's obligation. -/
theorem add_fresh_preserves_unique_ids (q : List QueuedContent) (c : QueuedContent)
    (cs : List QueuedContent) (hq : unique_ids q)
    (hc : c.content_id ∉ q.map (·.content_id))
    (hcs : (cs.map (·.content_id)).Nodup)
    (hdisj : ∀ x ∈ cs, x.content_id ∉ q.map (·.content_id)) :
    unique_ids (add_content q c) ∧ unique_ids (add_batch q cs) := by
  constructor
  · apply sort_queue_unique_ids
    unfold unique_ids
    rw [List.map_append, List.nodup_append]
    refine ⟨hq, by simp, ?_⟩
    intro x hx hx'
    simp only [List.map_cons, List.map_nil, List.mem_singleton] at hx'
    exact hc (hx' ▸ hx)
  · apply sort_queue_unique_ids
    unfold unique_ids
    rw [List.map_append, List.nodup_append]
    refine ⟨hq, hcs, ?_⟩
    intro x hx hx'
    obtain ⟨y, hy, hyx⟩ := List.mem_map.mp hx'
    exact hdisj y hy (hyx ▸ hx)

/-- C8 amended witness: adding a fresh id and a fresh disjoint batch. -/
theorem add_fresh_preserves_unique_ids_witness :
    unique_ids [⟨"a", "template", "p1", "CoCalc", "facebook", "txt-1", [], "l",
      none, none, "src1", "math", "2025-01-02T10:00:00", 5, "", false, none⟩] ∧
    unique_ids (add_content
      [⟨"a", "template", "p1", "CoCalc", "facebook", "txt-1", [], "l",
        none, none, "src1", "math", "2025-01-02T10:00:00", 5, "", false, none⟩]
      ⟨"b", "notebook", "p1", "CoCalc", "facebook", "txt-2", [], "l",
        none, none, "src2", "math", "2025-01-03T10:00:00", 5, "", false, none⟩) :=
  ⟨by decide,
   (add_fresh_preserves_unique_ids
      [⟨"a", "template", "p1", "CoCalc", "facebook", "txt-1", [], "l",
        none, none, "src1", "math", "2025-01-02T10:00:00", 5, "", false, none⟩]
      ⟨"b", "notebook", "p1", "CoCalc", "facebook", "txt-2", [], "l",
        none, none, "src2", "math", "2025-01-03T10:00:00", 5, "", false, none⟩
      [] (by decide) (by decide) (by decide) (by decide)).1⟩

/-! ## C9 -/

theorem candidates_for_themes_subset (themes : List String)
    (dict : List (String × List TemplateMetadata)) :
    ∀ t ∈ candidates_for_themes themes dict, t ∈ all_templates dict := by
  intro t ht
  unfold candidates_for_themes at ht
  unfold all_templates
  simp only [List.mem_flatten, List.mem_map] at ht ⊢
  obtain ⟨l, ⟨p, hp, hpl⟩, htl⟩ := ht
  subst hpl
  simp only [List.mem_flatten, List.mem_map] at htl
  obtain ⟨l', ⟨th, hth, hthl⟩, htl'⟩ := htl
  subst hthl
  exact ⟨p.2, ⟨p, hp, rfl⟩, htl'⟩

theorem candidate_pool_subset (themes : List String)
    (dict : List (String × List TemplateMetadata)) :
    ∀ t ∈ candidate_pool themes dict, t ∈ all_templates dict := by
  intro t ht
  unfold candidate_pool at ht
  split at ht
  · exact ht
  · unfold theme_candidates at ht
    split at ht
    · exact ht
    · exact candidates_for_themes_subset themes dict t ht

/-- C9: if some candidate in the pool lies outside the last-30 recency
window, `_select_template_for_day` draws from the non-recent candidates only
(every possible `random.choice` result is outside the window) and leaves the
recency state untouched; if every candidate is inside the window, the
platform's recency list is cleared and the selection retries against the
full template pool, which is non-empty (so the call does not return None)
whenever the pool was. -/
theorem select_template_recency_spec (themes : List String)
    (dict : List (String × List TemplateMetadata)) (recent : List String) :
    ((∃ t ∈ candidate_pool themes dict, t.template_name ∉ last_n 30 recent) →
      (select_candidates themes dict recent).2 = recent ∧
      (select_candidates themes dict recent).1 ≠ [] ∧
      ∀ t ∈ (select_candidates themes dict recent).1,
        t.template_name ∉ last_n 30 recent) ∧
    ((∀ t ∈ candidate_pool themes dict, t.template_name ∈ last_n 30 recent) →
      (select_candidates themes dict recent).2 = [] ∧
      (select_candidates themes dict recent).1 = all_templates dict ∧
      (candidate_pool themes dict ≠ [] →
        (select_candidates themes dict recent).1 ≠ [])) := by
  constructor
  · rintro ⟨t, htp, htr⟩
    have htf : t ∈ (candidate_pool themes dict).filter
        (fun t => !((last_n 30 recent).contains t.template_name)) := by
      rw [List.mem_filter]
      exact ⟨htp, by simpa using htr⟩
    have hne : ¬ ((candidate_pool themes dict).filter
        (fun t => !((last_n 30 recent).contains t.template_name))).isEmpty = true := by
      rw [List.isEmpty_iff]
      intro h
      rw [h] at htf
      exact List.not_mem_nil t htf
    have hsel : select_candidates themes dict recent =
        ((candidate_pool themes dict).filter
          (fun t => !((last_n 30 recent).contains t.template_name)), recent) := by
      unfold select_candidates
      rw [if_neg hne]
    rw [hsel]
    refine ⟨rfl, List.ne_nil_of_mem htf, ?_⟩
    intro t' ht'
    have := (List.mem_filter.mp ht').2
    simpa using this
  · intro hall
    have hemp : ((candidate_pool themes dict).filter
        (fun t => !((last_n 30 recent).contains t.template_name))) = [] := by
      rw [List.filter_eq_nil_iff]
      intro a ha
      simpa using hall a ha
    have hsel : select_candidates themes dict recent = (all_templates dict, []) := by
      unfold select_candidates
      rw [hemp]
      rfl
    rw [hsel]
    refine ⟨rfl, rfl, ?_⟩
    intro hpool
    obtain ⟨x, hx⟩ := List.exists_mem_of_ne_nil _ hpool
    exact List.ne_nil_of_mem (candidate_pool_subset themes dict x hx)

/-- C9 witness: a one-category index with two templates; with one of them
recently used the selection avoids it, and with both recently used the
recency window is cleared. -/
theorem select_template_recency_spec_witness :
    (∃ t ∈ candidate_pool ["mixed"]
        [("mathematics",
          [⟨"mathematics", "tmplA", "a.tex", none, [], "T", "A", "Ab", [], "gh", "cc",
            false, false, false, 0, "lm", 3⟩,
           ⟨"mathematics", "tmplB", "b.tex", none, [], "T", "A", "Ab", [], "gh", "cc",
            false, false, false, 0, "lm", 3⟩])],
      t.template_name ∉ last_n 30 ["tmplA"]) ∧
    (select_candidates ["mixed"]
        [("mathematics",
          [⟨"mathematics", "tmplA", "a.tex", none, [], "T", "A", "Ab", [], "gh", "cc",
            false, false, false, 0, "lm", 3⟩,
           ⟨"mathematics", "tmplB", "b.tex", none, [], "T", "A", "Ab", [], "gh", "cc",
            false, false, false, 0, "lm", 3⟩])] ["tmplA"]).2 = ["tmplA"] ∧
    (∀ t ∈ candidate_pool ["mixed"]
        [("mathematics",
          [⟨"mathematics", "tmplA", "a.tex", none, [], "T", "A", "Ab", [], "gh", "cc",
            false, false, false, 0, "lm", 3⟩,
           ⟨"mathematics", "tmplB", "b.tex", none, [], "T", "A", "Ab", [], "gh", "cc",
            false, false, false, 0, "lm", 3⟩])],
      t.template_name ∈ last_n 30 ["tmplA", "tmplB"]) ∧
    (select_candidates ["mixed"]
        [("mathematics",
          [⟨"mathematics", "tmplA", "a.tex", none, [], "T", "A", "Ab", [], "gh", "cc",
            false, false, false, 0, "lm", 3⟩,
           ⟨"mathematics", "tmplB", "b.tex", none, [], "T", "A", "Ab", [], "gh", "cc",
            false, false, false, 0, "lm", 3⟩])] ["tmplA", "tmplB"]).2 = [] :=
  ⟨by decide,
   ((select_template_recency_spec ["mixed"]
      [("mathematics",
        [⟨"mathematics", "tmplA", "a.tex", none, [], "T", "A", "Ab", [], "gh", "cc",
          false, false, false, 0, "lm", 3⟩,
         ⟨"mathematics", "tmplB", "b.tex", none, [], "T", "A", "Ab", [], "gh", "cc",
          false, false, false, 0, "lm", 3⟩])] ["tmplA"]).1 (by decide)).1,
   by decide,
   ((select_template_recency_spec ["mixed"]
      [("mathematics",
        [⟨"mathematics", "tmplA", "a.tex", none, [], "T", "A", "Ab", [], "gh", "cc",
          false, false, false, 0, "lm", 3⟩,
         ⟨"mathematics", "tmplB", "b.tex", none, [], "T", "A", "Ab", [], "gh", "cc",
          false, false, false, 0, "lm", 3⟩])] ["tmplA", "tmplB"]).2 (by decide)).1⟩

/-! ## C10 -/

/-- C10: `publish_to_instagram` returns `success = False` on every input —
missing credentials, a missing/empty image and the fully-supplied case each
produce their own distinct failure message — and the dispatcher therefore
never removes an instagram item on this path: the queue keeps its length (the
item stays queued and is retried after the failure reschedule). -/
theorem publish_to_instagram_never_succeeds :
    (∀ (acc tok : Option String) (fe : String → Bool) (cap now : Nat)
       (rate : RateLimitEntry) (ip tn ts : String),
      (publish_to_instagram acc tok fe cap now rate ip tn ts).1.success = false) ∧
    (publish_to_instagram none none (fun _ => true) 50 0 ⟨50, 100⟩
      "img.png" "tmpl" "ts").1.error_message = some "Missing credentials" ∧
    (publish_to_instagram (some "acct") (some "tok") (fun _ => false) 50 0 ⟨50, 100⟩
      "img.png" "tmpl" "ts").1.error_message = some "Image required for Instagram" ∧
    (publish_to_instagram (some "acct") (some "tok") (fun _ => true) 50 0 ⟨50, 100⟩
      "img.png" "tmpl" "ts").1.error_message =
        some "Instagram publishing requires image hosting setup" ∧
    (publish_to_instagram none none (fun _ => true) 50 0 ⟨50, 100⟩
      "img.png" "tmpl" "ts").1.error_message ≠
      (publish_to_instagram (some "acct") (some "tok") (fun _ => false) 50 0 ⟨50, 100⟩
        "img.png" "tmpl" "ts").1.error_message ∧
    (publish_to_instagram none none (fun _ => true) 50 0 ⟨50, 100⟩
      "img.png" "tmpl" "ts").1.error_message ≠
      (publish_to_instagram (some "acct") (some "tok") (fun _ => true) 50 0 ⟨50, 100⟩
        "img.png" "tmpl" "ts").1.error_message ∧
    (publish_to_instagram (some "acct") (some "tok") (fun _ => false) 50 0 ⟨50, 100⟩
      "img.png" "tmpl" "ts").1.error_message ≠
      (publish_to_instagram (some "acct") (some "tok") (fun _ => true) 50 0 ⟨50, 100⟩
        "img.png" "tmpl" "ts").1.error_message ∧
    (∀ (fromiso : String → Option Int) (toiso : Int → String) (q : List QueuedPost)
       (i : Nat) (acc tok : Option String) (fe : String → Bool) (cap now : Nat)
       (rate : RateLimitEntry) (ip tn ts : String),
      (publish_post_update fromiso toiso q i
        ((publish_to_instagram acc tok fe cap now rate ip tn ts).1.success)).length =
        q.length) := by
  have hsucc : ∀ (acc tok : Option String) (fe : String → Bool) (cap now : Nat)
      (rate : RateLimitEntry) (ip tn ts : String),
      (publish_to_instagram acc tok fe cap now rate ip tn ts).1.success = false := by
    intro acc tok fe cap now rate ip tn ts
    unfold publish_to_instagram
    split
    · rfl
    · split
      · rfl
      · rfl
  refine ⟨hsucc, by decide, by decide, by decide, by decide, by decide, by decide, ?_⟩
  intro fromiso toiso q i acc tok fe cap now rate ip tn ts
  rw [hsucc acc tok fe cap now rate ip tn ts]
  exact publish_post_update_false_length fromiso toiso q i

end SocialAutomation
